import Mathlib

/-!
Verification development for the dexo swarm coordinator
(`src/exo/autogen/swarm_coordinator.py`).

The coordinator tracks a registry of worker nodes and a registry of
learning tasks, admits nodes against a governance `ResourceThreshold`,
matches pending tasks to idle nodes, and exposes a status snapshot.

Modelling conventions:
* Python `float` capacity values are modelled as `Rat` (only order
  comparisons are performed on them); Python `int` as `Int`.
* Python `dict[str, V]` is modelled as an insertion-ordered association
  list `List (String × V)`: insertion overwrites an existing key in
  place (preserving its position, as CPython dicts do) and appends a
  fresh key at the end; `dict.values()` iterates in list order.
* All operations are pure state transformers `SwarmCoordinator → ... ×
  SwarmCoordinator`; logging is ignored.
* `list.sort(key=..., reverse=True)` (a stable descending sort on the
  key `(available_memory_gb, cpu_cores)`) is modelled by Mathlib's
  stable `List.insertionSort` with the corresponding descending
  relation.
-/

/-- Minimum resource thresholds (`ResourceThreshold` in the source),
with the source's default field values. -/
structure ResourceThreshold where
  min_memory_gb : Rat := 4
  min_cpu_cores : Int := 2
  min_gpu_memory_gb : Rat := 0
  min_network_bandwidth_mbps : Rat := 10
deriving Repr, DecidableEq

/-- A node in the swarm (`SwarmNode` in the source). -/
structure SwarmNode where
  node_id : String
  available_memory_gb : Rat
  cpu_cores : Int
  gpu_memory_gb : Rat := 0
  network_bandwidth_mbps : Rat
  status : String := "idle"
  capabilities : List String := []
deriving Repr, DecidableEq

/-- A continuous-learning task (`LearningTask` in the source). -/
structure LearningTask where
  task_id : String
  task_type : String
  priority : Int := 0
  required_resources : ResourceThreshold
  assigned_nodes : List String := []
  status : String := "pending"
deriving Repr, DecidableEq

/-- Lookup in an insertion-ordered string-keyed map (`d.get(k)` / `k in d`). -/
def dictGet (k : String) : List (String × α) → Option α
  | [] => none
  | (k', v) :: rest => if k' = k then some v else dictGet k rest

/-- Insertion into an insertion-ordered string-keyed map (`d[k] = v`):
overwrites an existing key in place, appends a fresh key. -/
def dictInsert (k : String) (v : α) : List (String × α) → List (String × α)
  | [] => [(k, v)]
  | (k', v') :: rest =>
      if k' = k then (k, v) :: rest else (k', v') :: dictInsert k v rest

/-- Deletion from a string-keyed map (`del d[k]`). -/
def dictErase (k : String) (l : List (String × α)) : List (String × α) :=
  l.filter (fun kv => kv.1 ≠ k)

/-- `d.values()`, in insertion order. -/
def dictValues (l : List (String × α)) : List α :=
  l.map (fun kv => kv.2)

/-- The keys of a string-keyed map, in insertion order. -/
def dictKeys (l : List (String × α)) : List String :=
  l.map (fun kv => kv.1)

/-- The coordinator state (`SwarmCoordinator` in the source): the
governance threshold plus the node and task registries. -/
structure SwarmCoordinator where
  resource_threshold : ResourceThreshold := {}
  nodes : List (String × SwarmNode) := []
  tasks : List (String × LearningTask) := []
deriving Repr, DecidableEq

/-- The freshly constructed coordinator: default threshold, empty registries. -/
def SwarmCoordinator.empty : SwarmCoordinator := {}

/-- `SwarmCoordinator._meets_threshold`: field-wise `≥` of the node's four
capacity fields against the coordinator's current threshold. -/
def SwarmCoordinator.meets_threshold (c : SwarmCoordinator) (node : SwarmNode) : Bool :=
  decide (node.available_memory_gb ≥ c.resource_threshold.min_memory_gb)
    && decide (node.cpu_cores ≥ c.resource_threshold.min_cpu_cores)
    && decide (node.gpu_memory_gb ≥ c.resource_threshold.min_gpu_memory_gb)
    && decide (node.network_bandwidth_mbps ≥ c.resource_threshold.min_network_bandwidth_mbps)

/-- `SwarmCoordinator.register_node`: reject (no state change) when the
node fails the threshold, otherwise insert/overwrite it under its
`node_id`. -/
def SwarmCoordinator.register_node (c : SwarmCoordinator) (node : SwarmNode) :
    Bool × SwarmCoordinator :=
  if c.meets_threshold node = false then
    (false, c)
  else
    (true, { c with nodes := dictInsert node.node_id node c.nodes })

/-- `SwarmCoordinator.unregister_node`: delete the node if its id is
present and report whether it was. -/
def SwarmCoordinator.unregister_node (c : SwarmCoordinator) (node_id : String) :
    Bool × SwarmCoordinator :=
  if (dictGet node_id c.nodes).isSome then
    (true, { c with nodes := dictErase node_id c.nodes })
  else
    (false, c)

/-- `SwarmCoordinator._node_suitable_for_task`: field-wise `≥` of the
node's four capacity fields against the task's `required_resources`. -/
def SwarmCoordinator.node_suitable_for_task (node : SwarmNode) (task : LearningTask) : Bool :=
  decide (node.available_memory_gb ≥ task.required_resources.min_memory_gb)
    && decide (node.cpu_cores ≥ task.required_resources.min_cpu_cores)
    && decide (node.gpu_memory_gb ≥ task.required_resources.min_gpu_memory_gb)
    && decide (node.network_bandwidth_mbps ≥ task.required_resources.min_network_bandwidth_mbps)

/-- The candidate list built inside `_assign_nodes_to_task`: all
registered nodes (in registry order) that are idle and suitable for the
task. -/
def SwarmCoordinator.candidate_nodes (c : SwarmCoordinator) (task : LearningTask) :
    List SwarmNode :=
  (dictValues c.nodes).filter
    (fun node => node.status == "idle" && SwarmCoordinator.node_suitable_for_task node task)

/-- The sort key `lambda n: (n.available_memory_gb, n.cpu_cores)`. -/
def SwarmCoordinator.sort_key (n : SwarmNode) : Rat × Int :=
  (n.available_memory_gb, n.cpu_cores)

/-- Python tuple `≤` on the sort key: lexicographic, first component first. -/
def SwarmCoordinator.key_le (p q : Rat × Int) : Bool :=
  decide (p.1 < q.1) || (decide (p.1 = q.1) && decide (p.2 ≤ q.2))

/-- The descending order used by `suitable_nodes.sort(key=..., reverse=True)`:
`a` may precede `b` when `b`'s key is `≤` `a`'s key. -/
def SwarmCoordinator.node_desc (a b : SwarmNode) : Prop :=
  SwarmCoordinator.key_le (SwarmCoordinator.sort_key b) (SwarmCoordinator.sort_key a) = true

instance : DecidableRel SwarmCoordinator.node_desc := fun a b =>
  instDecidableEqBool
    (SwarmCoordinator.key_le (SwarmCoordinator.sort_key b) (SwarmCoordinator.sort_key a)) true

/-- `SwarmCoordinator._assign_nodes_to_task`: look up the task, build the
candidate list, and if it is non-empty sort it descending by
`(available_memory_gb, cpu_cores)`, mark the top node busy, and record
the assignment on the task. -/
def SwarmCoordinator.assign_nodes_to_task (c : SwarmCoordinator) (task_id : String) :
    Bool × SwarmCoordinator :=
  match dictGet task_id c.tasks with
  | none => (false, c)
  | some task =>
    let suitable := c.candidate_nodes task
    match List.insertionSort SwarmCoordinator.node_desc suitable with
    | [] => (false, c)
    | assigned_node :: _ =>
      let task' := { task with assigned_nodes := [assigned_node.node_id], status := "assigned" }
      let node' := { assigned_node with status := "busy" }
      (true, { c with
                 tasks := dictInsert task_id task' c.tasks,
                 nodes := dictInsert assigned_node.node_id node' c.nodes })

/-- `SwarmCoordinator.submit_learning_task`: store the task under its id,
immediately attempt assignment, return the task's id. -/
def SwarmCoordinator.submit_learning_task (c : SwarmCoordinator) (task : LearningTask) :
    String × SwarmCoordinator :=
  let c1 : SwarmCoordinator := { c with tasks := dictInsert task.task_id task c.tasks }
  (task.task_id, (c1.assign_nodes_to_task task.task_id).2)

/-- The snapshot returned by `get_swarm_status` (the keys of the returned
dict, as a record). -/
structure SwarmStatus where
  total_nodes : Nat
  idle_nodes : Nat
  busy_nodes : Nat
  learning_nodes : Nat
  pending_tasks : Nat
  running_tasks : Nat
  completed_tasks : Nat
  resource_threshold : ResourceThreshold
deriving Repr, DecidableEq

/-- `SwarmCoordinator.get_swarm_status`: a pure read of the current
state; note that nodes with status `"error"` are counted in no surfaced
bucket. -/
def SwarmCoordinator.get_swarm_status (c : SwarmCoordinator) : SwarmStatus :=
  { total_nodes := (dictValues c.nodes).length
    idle_nodes := (dictValues c.nodes).countP (fun n => n.status == "idle")
    busy_nodes := (dictValues c.nodes).countP (fun n => n.status == "busy")
    learning_nodes := (dictValues c.nodes).countP (fun n => n.status == "learning")
    pending_tasks := (dictValues c.tasks).countP (fun t => t.status == "pending")
    running_tasks := (dictValues c.tasks).countP (fun t => t.status == "running")
    completed_tasks := (dictValues c.tasks).countP (fun t => t.status == "completed")
    resource_threshold := c.resource_threshold }

/-- The number of registered nodes with status `"error"` (computed from
the registry; this count is not part of the returned snapshot). -/
def SwarmCoordinator.count_error_nodes (c : SwarmCoordinator) : Nat :=
  (dictValues c.nodes).countP (fun n => n.status == "error")

/-- `SwarmCoordinator.set_resource_threshold`: install the new threshold,
collect the ids of registered nodes now failing it, and unregister each. -/
def SwarmCoordinator.set_resource_threshold (c : SwarmCoordinator)
    (threshold : ResourceThreshold) : SwarmCoordinator :=
  let c1 : SwarmCoordinator := { c with resource_threshold := threshold }
  let nodes_to_remove : List String :=
    dictKeys (c1.nodes.filter (fun kv => ! c1.meets_threshold kv.2))
  nodes_to_remove.foldl (fun st node_id => (st.unregister_node node_id).2) c1

/-- The ids of the tasks collected by one pass of the continuous-learning
loop (`task.status == "pending"`, in registry order). -/
def SwarmCoordinator.pending_task_ids (c : SwarmCoordinator) : List String :=
  ((dictValues c.tasks).filter (fun t => t.status == "pending")).map
    (fun t => t.task_id)

/-- The state transformation of one normal iteration of
`run_continuous_learning`: assign each pending task in turn
(`_monitor_tasks` only logs and does not change state). -/
def SwarmCoordinator.learning_iteration (c : SwarmCoordinator) : SwarmCoordinator :=
  c.pending_task_ids.foldl (fun st task_id => (st.assign_nodes_to_task task_id).2) c

/-- The ids `_monitor_tasks` traces: tasks with status `"running"`. -/
def SwarmCoordinator.monitor_task_ids (c : SwarmCoordinator) : List String :=
  ((dictValues c.tasks).filter (fun t => t.status == "running")).map
    (fun t => t.task_id)

/-- Outcome of the `try` body of one loop iteration: either it completes
with a new state, or it raises, leaving the state it had mutated so far. -/
inductive IterOutcome where
  | ok (c : SwarmCoordinator)
  | raised (c : SwarmCoordinator)
deriving Repr, DecidableEq

/-- The `try`/`except` boundary of `run_continuous_learning`: a completed
body is followed by the normal 5-unit sleep, a raising body is caught,
logged, and followed by the 10-unit backoff sleep; both resume the loop
with the body's final state. -/
def SwarmCoordinator.loop_step (body : SwarmCoordinator → IterOutcome)
    (c : SwarmCoordinator) : SwarmCoordinator × Rat :=
  match body c with
  | IterOutcome.ok c' => (c', 5)
  | IterOutcome.raised c' => (c', 10)

/-- The first `n` iterations of `run_continuous_learning` under a given
(possibly raising) iteration body: the loop is total, every outcome
resumes it. -/
def SwarmCoordinator.run_continuous_learning (body : SwarmCoordinator → IterOutcome) :
    Nat → SwarmCoordinator → SwarmCoordinator
  | 0, c => c
  | n + 1, c => SwarmCoordinator.run_continuous_learning body n
      (SwarmCoordinator.loop_step body c).1

/-- The non-raising iteration body: the actual loop body of the source,
which (being a pure computation over in-memory state) completes normally. -/
def SwarmCoordinator.normal_body (c : SwarmCoordinator) : IterOutcome :=
  IterOutcome.ok c.learning_iteration

/-- Well-formedness of a coordinator state as maintained by the Python
dicts: keys are unique, each node is stored under its own `node_id`, and
each task under its own `task_id`. -/
def SwarmCoordinator.WF (c : SwarmCoordinator) : Prop :=
  (dictKeys c.nodes).Nodup ∧ (dictKeys c.tasks).Nodup
    ∧ (∀ kv ∈ c.nodes, kv.1 = kv.2.node_id)
    ∧ (∀ kv ∈ c.tasks, kv.1 = kv.2.task_id)

instance (c : SwarmCoordinator) : Decidable c.WF := by
  unfold SwarmCoordinator.WF; infer_instance

/-- A public operation on the coordinator (the inbound interface):
node registration/unregistration, task submission, an assignment attempt
driven by the continuous-learning loop, and threshold governance. -/
inductive SwarmOp where
  | register (n : SwarmNode)
  | unregister (node_id : String)
  | submit (t : LearningTask)
  | assign (task_id : String)
  | set_threshold (th : ResourceThreshold)
deriving Repr

/-- The state transition of one public operation. -/
def SwarmCoordinator.apply_op (c : SwarmCoordinator) : SwarmOp → SwarmCoordinator
  | SwarmOp.register n => (c.register_node n).2
  | SwarmOp.unregister i => (c.unregister_node i).2
  | SwarmOp.submit t => (c.submit_learning_task t).2
  | SwarmOp.assign i => (c.assign_nodes_to_task i).2
  | SwarmOp.set_threshold th => c.set_resource_threshold th

/-- The state reached from the empty coordinator by a sequence of public
operations. -/
def SwarmCoordinator.run_ops (ops : List SwarmOp) : SwarmCoordinator :=
  ops.foldl SwarmCoordinator.apply_op SwarmCoordinator.empty

/-- States reachable from the empty coordinator by public operations whose
inputs are well-behaved: registered nodes carry a `node_id` not currently
referenced by any task's `assigned_nodes`, and submitted tasks arrive
with empty `assigned_nodes`. -/
inductive AdmissibleReachable : SwarmCoordinator → Prop where
  | empty : AdmissibleReachable SwarmCoordinator.empty
  | register {c : SwarmCoordinator} (n : SwarmNode) : AdmissibleReachable c →
      (∀ kv ∈ c.tasks, n.node_id ∉ kv.2.assigned_nodes) →
      AdmissibleReachable (c.apply_op (SwarmOp.register n))
  | unregister {c : SwarmCoordinator} (i : String) : AdmissibleReachable c →
      AdmissibleReachable (c.apply_op (SwarmOp.unregister i))
  | submit {c : SwarmCoordinator} (t : LearningTask) : AdmissibleReachable c →
      t.assigned_nodes = [] →
      AdmissibleReachable (c.apply_op (SwarmOp.submit t))
  | assign {c : SwarmCoordinator} (i : String) : AdmissibleReachable c →
      AdmissibleReachable (c.apply_op (SwarmOp.assign i))
  | set_threshold {c : SwarmCoordinator} (th : ResourceThreshold) :
      AdmissibleReachable c →
      AdmissibleReachable (c.apply_op (SwarmOp.set_threshold th))

/-! ### Concrete states used by the examples below -/

/-- A spacious idle node (scenario 1 of the spec). -/
def exNodeA : SwarmNode :=
  { node_id := "A", available_memory_gb := 16, cpu_cores := 8, gpu_memory_gb := 8,
    network_bandwidth_mbps := 1000 }

/-- An under-resourced node (scenario 2 of the spec). -/
def exNodeSmall : SwarmNode :=
  { node_id := "B", available_memory_gb := 1, cpu_cores := 1,
    network_bandwidth_mbps := 5 }

/-- A node in error status that meets the default threshold. -/
def exNodeErr : SwarmNode :=
  { node_id := "E", available_memory_gb := 16, cpu_cores := 8,
    network_bandwidth_mbps := 1000, status := "error" }

/-- A task that `exNodeA` can satisfy. -/
def exTask : LearningTask :=
  { task_id := "T", task_type := "training",
    required_resources := { min_memory_gb := 8, min_cpu_cores := 4 } }

/-- Resource requirements no example node can meet. -/
def exBigDemand : ResourceThreshold :=
  { min_memory_gb := 100, min_cpu_cores := 50 }

/-- A coordinator with the single idle node `exNodeA`. -/
def exCoordA : SwarmCoordinator := { nodes := [("A", exNodeA)] }

/-- `exTask` carrying a stale reference to a node "x". -/
def exTaskStale : LearningTask := { exTask with assigned_nodes := ["x"] }

/-- A coordinator where task "T" already carries a stale reference to "x"
while the idle suitable node `exNodeA` is registered. -/
def exCoordStale : SwarmCoordinator :=
  { nodes := [("A", exNodeA)], tasks := [("T", exTaskStale)] }

/-- A task submitted with caller-chosen status "completed" and
unsatisfiable requirements. -/
def exTaskCompleted : LearningTask :=
  { task_id := "U", task_type := "training", required_resources := exBigDemand,
    status := "completed" }

/-- A task submitted with status "running", a stale assignment, and
requirements that `exNodeA` meets. -/
def exTaskRunning : LearningTask :=
  { task_id := "R", task_type := "training",
    required_resources := { min_memory_gb := 8, min_cpu_cores := 4 },
    assigned_nodes := ["old"], status := "running" }

/-- A coordinator whose only node is in error status. -/
def exCoordErr : SwarmCoordinator := { nodes := [("E", exNodeErr)] }

/-- A pending task that already references node "A" on submission while
demanding more than any node offers. -/
def exTaskRefA : LearningTask :=
  { task_id := "S", task_type := "training", required_resources := exBigDemand,
    assigned_nodes := ["A"] }

/-- A coordinator holding `exNodeA` and a stored task no node can satisfy. -/
def exCoordNoFit : SwarmCoordinator :=
  { nodes := [("A", exNodeA)], tasks := [("U", exTaskCompleted)] }

/-- A pending task with unsatisfiable demands and no stale references. -/
def exTaskHungry : LearningTask :=
  { task_id := "P", task_type := "training", required_resources := exBigDemand }

/-- A coordinator with one idle node and one unsatisfiable pending task. -/
def exCoordHungry : SwarmCoordinator :=
  { nodes := [("A", exNodeA)], tasks := [("P", exTaskHungry)] }

/-- The state reached by registering `exNodeA` and then submitting
`exTaskRefA` (a task that names "A" in its `assigned_nodes` on arrival). -/
def exCoordBad : SwarmCoordinator :=
  SwarmCoordinator.run_ops [SwarmOp.register exNodeA, SwarmOp.submit exTaskRefA]

/-- The state reached by registering `exNodeA` and then submitting
`exTask` (which gets assigned to "A" immediately). -/
def exCoordAssigned : SwarmCoordinator :=
  (SwarmCoordinator.empty.apply_op (SwarmOp.register exNodeA)).apply_op
    (SwarmOp.submit exTask)

/-- Every node referenced by a stored task's `assigned_nodes`, if it is
registered, is busy, learning, or in error. -/
def SwarmCoordinator.RefOK (c : SwarmCoordinator) : Prop :=
  ∀ k t, dictGet k c.tasks = some t → ∀ i ∈ t.assigned_nodes,
    ∀ n, dictGet i c.nodes = some n →
      n.status = "busy" ∨ n.status = "learning" ∨ n.status = "error"

/-- No node id is referenced by the `assigned_nodes` of two distinct
stored tasks. -/
def SwarmCoordinator.NoDouble (c : SwarmCoordinator) : Prop :=
  ∀ k1 t1 k2 t2, dictGet k1 c.tasks = some t1 → dictGet k2 c.tasks = some t2 →
    k1 ≠ k2 → ∀ i ∈ t1.assigned_nodes, i ∉ t2.assigned_nodes

/-- The inductive invariant for the no-double-booking argument. -/
def SwarmCoordinator.StrongInv (c : SwarmCoordinator) : Prop :=
  c.WF ∧ c.RefOK ∧ c.NoDouble

/-! ### Lemmas about the association-list dictionary model -/

theorem dictGet_dictInsert_self {α : Type} (k : String) (v : α) (l : List (String × α)) :
    dictGet k (dictInsert k v l) = some v := by
  induction l with
  | nil => simp [dictGet, dictInsert]
  | cons kv rest ih =>
      by_cases h : kv.1 = k
      · simp [dictInsert, dictGet, h]
      · simpa [dictInsert, dictGet, h] using ih

theorem dictGet_dictInsert_ne {α : Type} {q k : String} (h : q ≠ k) (v : α)
    (l : List (String × α)) : dictGet q (dictInsert k v l) = dictGet q l := by
  induction l with
  | nil => simp [dictGet, dictInsert, Ne.symm h]
  | cons kv rest ih =>
      by_cases h1 : kv.1 = k
      · have h2 : kv.1 ≠ q := fun h3 => h (h3 ▸ h1)
        simp [dictInsert, dictGet, h1, h2, Ne.symm h]
      · by_cases h2 : kv.1 = q
        · simp [dictInsert, dictGet, h1, h2, h, Ne.symm h]
        · simpa [dictInsert, dictGet, h1, h2] using ih

theorem dictGet_eq_none_iff {α : Type} (k : String) (l : List (String × α)) :
    dictGet k l = none ↔ ∀ kv ∈ l, kv.1 ≠ k := by
  induction l with
  | nil => simp [dictGet]
  | cons kv rest ih =>
      by_cases h : kv.1 = k <;> simp [dictGet, h, ih]

theorem dictGet_mem {α : Type} {k : String} {v : α} {l : List (String × α)}
    (h : dictGet k l = some v) : (k, v) ∈ l := by
  induction l with
  | nil => simp [dictGet] at h
  | cons kv rest ih =>
      by_cases h1 : kv.1 = k
      · obtain ⟨k1, v1⟩ := kv
        simp only [dictGet] at h
        simp only at h1
        rw [if_pos h1] at h
        subst h1
        rw [Option.some_inj] at h
        subst h
        exact List.mem_cons_self _ _
      · simp only [dictGet, h1, if_neg, ite_false] at h
        exact List.mem_cons_of_mem _ (ih h)

theorem mem_dictGet {α : Type} {k : String} {v : α} {l : List (String × α)}
    (hnd : (dictKeys l).Nodup) (h : (k, v) ∈ l) : dictGet k l = some v := by
  induction l with
  | nil => simp at h
  | cons kv rest ih =>
      simp only [dictKeys, List.map_cons, List.nodup_cons] at hnd
      rcases List.mem_cons.mp h with h | h
      · simp [dictGet, ← h]
      · have hk : kv.1 ≠ k := by
          intro he
          exact hnd.1 (he ▸ (List.mem_map.mpr ⟨(k, v), h, rfl⟩))
        simpa [dictGet, hk] using ih hnd.2 h

theorem dictErase_of_absent {α : Type} {k : String} {l : List (String × α)}
    (h : dictGet k l = none) : dictErase k l = l := by
  refine List.filter_eq_self.mpr ?_
  intro kv hm
  simpa using (dictGet_eq_none_iff k l).mp h kv hm

theorem dictGet_dictErase_self {α : Type} (k : String) (l : List (String × α)) :
    dictGet k (dictErase k l) = none := by
  rw [dictGet_eq_none_iff]
  intro kv hm
  simpa using (List.mem_filter.mp hm).2

theorem dictGet_dictErase_ne {α : Type} {q k : String} (h : q ≠ k)
    (l : List (String × α)) : dictGet q (dictErase k l) = dictGet q l := by
  induction l with
  | nil => rfl
  | cons kv rest ih =>
      by_cases h1 : kv.1 = k
      · simpa [dictErase, dictGet, h1, Ne.symm h] using ih
      · by_cases h2 : kv.1 = q
        · simp [dictErase, dictGet, h1, h2, h, Ne.symm h]
        · simpa [dictErase, dictGet, h1, h2] using ih

theorem length_dictInsert_present {α : Type} {k : String} {l : List (String × α)}
    (h : (dictGet k l).isSome = true) (v : α) :
    (dictInsert k v l).length = l.length := by
  induction l with
  | nil => simp [dictGet] at h
  | cons kv rest ih =>
      by_cases h1 : kv.1 = k
      · simp [dictInsert, h1]
      · simp only [dictGet, h1, if_neg, ite_false] at h
        simp [dictInsert, h1, ih h]

theorem dictKeys_dictInsert_present {α : Type} {k : String} {l : List (String × α)}
    (h : (dictGet k l).isSome = true) (v : α) :
    dictKeys (dictInsert k v l) = dictKeys l := by
  induction l with
  | nil => simp [dictGet] at h
  | cons kv rest ih =>
      by_cases h1 : kv.1 = k
      · simp [dictInsert, dictKeys, h1]
      · simp only [dictGet, h1, if_neg, ite_false] at h
        simp only [dictInsert, h1, if_neg, ite_false, dictKeys, List.map_cons] at ih ⊢
        rw [ih h]

theorem dictKeys_dictInsert_absent {α : Type} {k : String} {l : List (String × α)}
    (h : dictGet k l = none) (v : α) :
    dictKeys (dictInsert k v l) = dictKeys l ++ [k] := by
  induction l with
  | nil => simp [dictInsert, dictKeys]
  | cons kv rest ih =>
      by_cases h1 : kv.1 = k
      · simp [dictGet, h1] at h
      · simp only [dictGet, h1, if_neg, ite_false] at h
        simp only [dictInsert, h1, if_neg, ite_false, dictKeys, List.map_cons,
          List.cons_append] at ih ⊢
        rw [ih h]

theorem nodup_dictKeys_dictInsert {α : Type} {l : List (String × α)}
    (hnd : (dictKeys l).Nodup) (k : String) (v : α) :
    (dictKeys (dictInsert k v l)).Nodup := by
  rcases h : dictGet k l with _ | v'
  · rw [dictKeys_dictInsert_absent h]
    refine List.Nodup.append hnd (List.nodup_singleton k) ?_
    intro a ha hb
    rcases List.mem_map.mp ha with ⟨kv, hkv, hk⟩
    rcases List.mem_singleton.mp hb with rfl
    exact (dictGet_eq_none_iff a l).mp h kv hkv hk
  · rw [dictKeys_dictInsert_present (by simp [h]) v]
    exact hnd

theorem dictKeys_dictErase_sublist {α : Type} (k : String) (l : List (String × α)) :
    (dictKeys (dictErase k l)).Sublist (dictKeys l) :=
  List.Sublist.map _ (List.filter_sublist l)

theorem nodup_dictKeys_dictErase {α : Type} {l : List (String × α)}
    (hnd : (dictKeys l).Nodup) (k : String) :
    (dictKeys (dictErase k l)).Nodup :=
  List.Nodup.sublist (dictKeys_dictErase_sublist k l) hnd

theorem mem_dictInsert_of_mem {α : Type} {kv : String × α} {k : String} {v : α}
    {l : List (String × α)} (hm : kv ∈ dictInsert k v l) :
    kv = (k, v) ∨ kv ∈ l := by
  induction l with
  | nil => simpa [dictInsert] using hm
  | cons kv' rest ih =>
      by_cases h1 : kv'.1 = k
      · simp only [dictInsert, h1, if_pos, ite_true, List.mem_cons] at hm
        rcases hm with h | h
        · exact Or.inl h
        · exact Or.inr (List.mem_cons_of_mem _ h)
      · simp only [dictInsert, h1, if_neg, ite_false, List.mem_cons] at hm
        rcases hm with h | h
        · exact Or.inr (List.mem_cons.mpr (Or.inl h))
        · rcases ih h with h2 | h2
          · exact Or.inl h2
          · exact Or.inr (List.mem_cons_of_mem _ h2)

theorem mem_dictValues {α : Type} {x : α} {l : List (String × α)}
    (hm : x ∈ dictValues l) : ∃ k, (k, x) ∈ l := by
  rcases List.mem_map.mp hm with ⟨kv, hkv, hx⟩
  exact ⟨kv.1, by obtain ⟨a, b⟩ := kv; simp_all⟩

theorem dictValues_mem {α : Type} {k : String} {x : α} {l : List (String × α)}
    (hm : (k, x) ∈ l) : x ∈ dictValues l :=
  List.mem_map.mpr ⟨(k, x), hm, rfl⟩

/-! ### The descending sort order on candidate nodes -/

theorem key_le_iff (p q : Rat × Int) :
    SwarmCoordinator.key_le p q = true ↔ p.1 < q.1 ∨ (p.1 = q.1 ∧ p.2 ≤ q.2) := by
  simp [SwarmCoordinator.key_le]

theorem key_le_refl (p : Rat × Int) : SwarmCoordinator.key_le p p = true :=
  (key_le_iff p p).mpr (Or.inr ⟨rfl, le_refl _⟩)

theorem key_le_trans {p q r : Rat × Int} (h1 : SwarmCoordinator.key_le p q = true)
    (h2 : SwarmCoordinator.key_le q r = true) : SwarmCoordinator.key_le p r = true := by
  rw [key_le_iff] at h1 h2 ⊢
  rcases h1 with h1 | ⟨h1a, h1b⟩ <;> rcases h2 with h2 | ⟨h2a, h2b⟩
  · exact Or.inl (lt_trans h1 h2)
  · exact Or.inl (h2a ▸ h1)
  · exact Or.inl (h1a ▸ h2)
  · exact Or.inr ⟨h1a.trans h2a, le_trans h1b h2b⟩

theorem key_le_total (p q : Rat × Int) :
    SwarmCoordinator.key_le p q = true ∨ SwarmCoordinator.key_le q p = true := by
  rw [key_le_iff, key_le_iff]
  rcases lt_trichotomy p.1 q.1 with h | h | h
  · exact Or.inl (Or.inl h)
  · rcases le_total p.2 q.2 with h2 | h2
    · exact Or.inl (Or.inr ⟨h, h2⟩)
    · exact Or.inr (Or.inr ⟨h.symm, h2⟩)
  · exact Or.inr (Or.inl h)

instance : IsTotal SwarmNode SwarmCoordinator.node_desc :=
  ⟨fun a b =>
    Or.symm (key_le_total (SwarmCoordinator.sort_key a) (SwarmCoordinator.sort_key b))⟩

instance : IsTrans SwarmNode SwarmCoordinator.node_desc :=
  ⟨fun _ _ _ hab hbc => key_le_trans hbc hab⟩

theorem insertionSort_node_desc_eq_nil_iff (l : List SwarmNode) :
    List.insertionSort SwarmCoordinator.node_desc l = [] ↔ l = [] := by
  constructor
  · intro h
    have hp := List.perm_insertionSort SwarmCoordinator.node_desc l
    rw [h] at hp
    exact (List.Perm.nil_eq hp).symm
  · intro h
    rw [h]
    rfl

/-! ### Case analysis of `_assign_nodes_to_task` -/

theorem assign_of_absent {c : SwarmCoordinator} {tid : String}
    (h : dictGet tid c.tasks = none) :
    c.assign_nodes_to_task tid = (false, c) := by
  simp [SwarmCoordinator.assign_nodes_to_task, h]

theorem assign_of_no_candidate {c : SwarmCoordinator} {tid : String} {t : LearningTask}
    (ht : dictGet tid c.tasks = some t) (hc : c.candidate_nodes t = []) :
    c.assign_nodes_to_task tid = (false, c) := by
  simp [SwarmCoordinator.assign_nodes_to_task, ht, hc]

theorem assign_of_cons {c : SwarmCoordinator} {tid : String} {t : LearningTask}
    {ch : SwarmNode} {rest : List SwarmNode}
    (ht : dictGet tid c.tasks = some t)
    (hs : List.insertionSort SwarmCoordinator.node_desc (c.candidate_nodes t) = ch :: rest) :
    c.assign_nodes_to_task tid =
      (true,
        { c with
            tasks := dictInsert tid
              { t with assigned_nodes := [ch.node_id], status := "assigned" } c.tasks,
            nodes := dictInsert ch.node_id { ch with status := "busy" } c.nodes }) := by
  simp [SwarmCoordinator.assign_nodes_to_task, ht, hs]

theorem assign_head_mem {c : SwarmCoordinator} {t : LearningTask}
    {ch : SwarmNode} {rest : List SwarmNode}
    (hs : List.insertionSort SwarmCoordinator.node_desc (c.candidate_nodes t) = ch :: rest) :
    ch ∈ c.candidate_nodes t := by
  have : ch ∈ List.insertionSort SwarmCoordinator.node_desc (c.candidate_nodes t) := by
    rw [hs]; exact List.mem_cons_self _ _
  exact (List.mem_insertionSort _).mp this

theorem assign_head_max {c : SwarmCoordinator} {t : LearningTask}
    {ch : SwarmNode} {rest : List SwarmNode}
    (hs : List.insertionSort SwarmCoordinator.node_desc (c.candidate_nodes t) = ch :: rest) :
    ∀ x ∈ c.candidate_nodes t,
      SwarmCoordinator.key_le (SwarmCoordinator.sort_key x) (SwarmCoordinator.sort_key ch)
        = true := by
  intro x hx
  have hsorted := List.sorted_insertionSort SwarmCoordinator.node_desc (c.candidate_nodes t)
  rw [hs, List.sorted_cons] at hsorted
  have hx2 : x ∈ List.insertionSort SwarmCoordinator.node_desc (c.candidate_nodes t) :=
    (List.mem_insertionSort _).mpr hx
  rw [hs] at hx2
  rcases List.mem_cons.mp hx2 with rfl | hx3
  · exact key_le_refl _
  · exact hsorted.1 x hx3

theorem assign_false_iff (c : SwarmCoordinator) (tid : String) :
    (c.assign_nodes_to_task tid).1 = false ↔
      (dictGet tid c.tasks = none ∨
        ∃ t, dictGet tid c.tasks = some t ∧ c.candidate_nodes t = []) := by
  rcases ht : dictGet tid c.tasks with _ | t
  · simp [assign_of_absent ht]
  · rcases hs : List.insertionSort SwarmCoordinator.node_desc (c.candidate_nodes t) with _ | ⟨ch, rest⟩
    · have hc : c.candidate_nodes t = [] := (insertionSort_node_desc_eq_nil_iff _).mp hs
      simp [assign_of_no_candidate ht hc, hc]
    · have hne : c.candidate_nodes t ≠ [] := by
        intro h0
        rw [h0] at hs
        simp at hs
      simp [assign_of_cons ht hs, hne]

theorem assign_false_state (c : SwarmCoordinator) (tid : String)
    (h : (c.assign_nodes_to_task tid).1 = false) :
    (c.assign_nodes_to_task tid).2 = c := by
  rcases (assign_false_iff c tid).mp h with h1 | ⟨t, ht, hc⟩
  · rw [assign_of_absent h1]
  · rw [assign_of_no_candidate ht hc]

/-! ### C1: node admission -/

/-- C1: for every coordinator state and node `n`, `registerNode(n)`
returns `true` iff all four of `n`'s capacity fields are `≥` the
corresponding fields of the coordinator's current `ResourceThreshold`;
on `true` the node is inserted (overwriting any existing entry) under
its `node_id` with everything else unchanged, and on `false` the whole
state (in particular both registries) is exactly unchanged. -/
theorem c1_register_node_correct (c : SwarmCoordinator) (n : SwarmNode) :
    ((c.register_node n).1 = true ↔
      (n.available_memory_gb ≥ c.resource_threshold.min_memory_gb ∧
        n.cpu_cores ≥ c.resource_threshold.min_cpu_cores ∧
        n.gpu_memory_gb ≥ c.resource_threshold.min_gpu_memory_gb ∧
        n.network_bandwidth_mbps ≥ c.resource_threshold.min_network_bandwidth_mbps)) ∧
    ((c.register_node n).1 = true →
      (c.register_node n).2 = { c with nodes := dictInsert n.node_id n c.nodes }) ∧
    ((c.register_node n).1 = false → (c.register_node n).2 = c) := by
  have hfst : (c.register_node n).1 = c.meets_threshold n := by
    unfold SwarmCoordinator.register_node
    cases h : c.meets_threshold n <;> simp [h]
  refine ⟨?_, ?_, ?_⟩
  · rw [hfst]
    simp [SwarmCoordinator.meets_threshold, Bool.and_eq_true, decide_eq_true_eq, and_assoc]
  · intro h
    rw [hfst] at h
    unfold SwarmCoordinator.register_node
    simp [h]
  · intro h
    rw [hfst] at h
    unfold SwarmCoordinator.register_node
    simp [h]

/-- Witness for C1: the default threshold admits `exNodeA` (and the
registry write happens) and rejects `exNodeSmall` (and nothing changes). -/
theorem c1_register_node_correct_witness :
    (SwarmCoordinator.empty.register_node exNodeA).1 = true ∧
    (SwarmCoordinator.empty.register_node exNodeA).2 =
      { SwarmCoordinator.empty with
          nodes := dictInsert exNodeA.node_id exNodeA SwarmCoordinator.empty.nodes } ∧
    (SwarmCoordinator.empty.register_node exNodeSmall).1 = false ∧
    (SwarmCoordinator.empty.register_node exNodeSmall).2 = SwarmCoordinator.empty :=
  ⟨(c1_register_node_correct SwarmCoordinator.empty exNodeA).1.mpr (by decide),
    (c1_register_node_correct SwarmCoordinator.empty exNodeA).2.1 (by decide),
    by decide,
    (c1_register_node_correct SwarmCoordinator.empty exNodeSmall).2.2 (by decide)⟩

/-! ### C8: node unregistration -/

/-- C8: `unregisterNode(nodeID)` removes the node when present and
returns `true` exactly then (`false` is a benign no-op on an absent id);
the task registry is exactly unchanged in either case, so tasks
referencing the removed node keep those references and their status. -/
theorem c8_unregister_node_correct (c : SwarmCoordinator) (i : String) :
    ((c.unregister_node i).1 = true ↔ (dictGet i c.nodes).isSome = true) ∧
    ((c.unregister_node i).1 = true →
      (c.unregister_node i).2 = { c with nodes := dictErase i c.nodes }) ∧
    ((c.unregister_node i).1 = false → (c.unregister_node i).2 = c) ∧
    dictGet i (c.unregister_node i).2.nodes = none ∧
    (c.unregister_node i).2.tasks = c.tasks ∧
    (∀ k t, dictGet k c.tasks = some t →
      dictGet k (c.unregister_node i).2.tasks = some t) := by
  unfold SwarmCoordinator.unregister_node
  by_cases h : (dictGet i c.nodes).isSome = true
  · simp [h, dictGet_dictErase_self]
  · have h0 : dictGet i c.nodes = none := by
      rcases hg : dictGet i c.nodes with _ | v
      · rfl
      · rw [hg] at h
        simp at h
    simp [h, h0]

/-- Witness for C8: unregistering "A" from `exCoordA` erases it, and
unregistering the absent "Z" changes nothing. -/
theorem c8_unregister_node_correct_witness :
    (exCoordA.unregister_node "A").2 =
      { exCoordA with nodes := dictErase "A" exCoordA.nodes } ∧
    (exCoordA.unregister_node "Z").2 = exCoordA ∧
    dictGet "T" ((exCoordStale.unregister_node "A").2).tasks =
      some { exTask with assigned_nodes := ["x"] } :=
  ⟨(c8_unregister_node_correct exCoordA "A").2.1 (by decide),
    (c8_unregister_node_correct exCoordA "Z").2.2.1 (by decide),
    (c8_unregister_node_correct exCoordStale "A").2.2.2.2.2 "T"
      { exTask with assigned_nodes := ["x"] } (by decide)⟩

/-! ### C6: failure cases of the matching algorithm -/

/-- C6: `assignNodesToTask(taskID)` returns `false` in exactly two
cases — the task id is absent, or the candidate set of idle suitable
nodes is empty — and in both the entire coordinator state is unchanged;
in the second case the stored task (in particular a pending one with
empty `assigned_nodes`) is untouched. -/
theorem c6_assign_failure_cases (c : SwarmCoordinator) (tid : String) :
    ((c.assign_nodes_to_task tid).1 = false ↔
      (dictGet tid c.tasks = none ∨
        ∃ t, dictGet tid c.tasks = some t ∧ c.candidate_nodes t = [])) ∧
    ((c.assign_nodes_to_task tid).1 = false → (c.assign_nodes_to_task tid).2 = c) ∧
    (∀ t, dictGet tid c.tasks = some t → c.candidate_nodes t = [] →
      dictGet tid (c.assign_nodes_to_task tid).2.tasks = some t) := by
  refine ⟨assign_false_iff c tid, assign_false_state c tid, ?_⟩
  intro t ht hc
  rw [assign_of_no_candidate ht hc]
  exact ht

/-- Witness for C6: with `exCoordA` the id "T" is absent (silent no-op),
and in `exCoordNoFit` the stored task "U" has no candidate, stays put. -/
theorem c6_assign_failure_cases_witness :
    (exCoordA.assign_nodes_to_task "T").1 = false ∧
    (exCoordA.assign_nodes_to_task "T").2 = exCoordA ∧
    dictGet "U" (exCoordNoFit.assign_nodes_to_task "U").2.tasks = some exTaskCompleted :=
  ⟨(c6_assign_failure_cases exCoordA "T").1.mpr (Or.inl (by decide)),
    (c6_assign_failure_cases exCoordA "T").2.1
      ((c6_assign_failure_cases exCoordA "T").1.mpr (Or.inl (by decide))),
    (c6_assign_failure_cases exCoordNoFit "U").2.2 exTaskCompleted (by decide) (by decide)⟩

/-! ### C2: successful matching -/

/-- Counterexample to C2 as stated: in `exCoordStale` the stored task "T"
already references "x"; a successful assignment replaces
`assigned_nodes` with the singleton of the chosen node's id, rather than
appending to the existing list (which would give ["x", "A"]). -/
theorem c2_assign_appends_counterexample :
    (exCoordStale.assign_nodes_to_task "T").1 = true ∧
    (dictGet "T" (exCoordStale.assign_nodes_to_task "T").2.tasks).map
      LearningTask.assigned_nodes = some ["A"] ∧
    (some ["A"] : Option (List String)) ≠ some (["x"] ++ ["A"]) :=
  ⟨by decide, by decide, by decide⟩

/-- C2 (amended): when the task is present and its candidate set (idle
nodes satisfying `required_resources` field-wise) is non-empty,
assignment returns `true`, picks a candidate maximal under the
lexicographic order on `(available_memory_gb, cpu_cores)` (memory
first), sets that node's status to busy, sets the task's
`assigned_nodes` to the singleton of that node's id (replacing any prior
content), and sets the task's status to "assigned". -/
theorem c2_assign_success (c : SwarmCoordinator) (tid : String) (t : LearningTask)
    (ht : dictGet tid c.tasks = some t) (hne : c.candidate_nodes t ≠ []) :
    ∃ ch, ch ∈ c.candidate_nodes t ∧
      (∀ x ∈ c.candidate_nodes t,
        SwarmCoordinator.key_le (SwarmCoordinator.sort_key x)
          (SwarmCoordinator.sort_key ch) = true) ∧
      c.assign_nodes_to_task tid =
        (true,
          { c with
              tasks := dictInsert tid
                { t with assigned_nodes := [ch.node_id], status := "assigned" } c.tasks,
              nodes := dictInsert ch.node_id { ch with status := "busy" } c.nodes }) := by
  rcases hs : List.insertionSort SwarmCoordinator.node_desc (c.candidate_nodes t)
    with _ | ⟨ch, rest⟩
  · exact absurd ((insertionSort_node_desc_eq_nil_iff _).mp hs) hne
  · exact ⟨ch, assign_head_mem hs, assign_head_max hs, assign_of_cons ht hs⟩

/-- Witness for C2 (amended), at `exCoordStale` and task "T". -/
theorem c2_assign_success_witness :
    ∃ ch, ch ∈ exCoordStale.candidate_nodes exTaskStale ∧
      (∀ x ∈ exCoordStale.candidate_nodes exTaskStale,
        SwarmCoordinator.key_le (SwarmCoordinator.sort_key x)
          (SwarmCoordinator.sort_key ch) = true) ∧
      exCoordStale.assign_nodes_to_task "T" =
        (true,
          { exCoordStale with
              tasks := dictInsert "T"
                { exTaskStale with assigned_nodes := [ch.node_id], status := "assigned" }
                exCoordStale.tasks,
              nodes := dictInsert ch.node_id { ch with status := "busy" }
                exCoordStale.nodes }) :=
  c2_assign_success exCoordStale "T" exTaskStale (by decide) (by decide)

/-! ### C5: task submission -/

/-- Counterexample to C5 as stated: submitting `exTaskCompleted` (caller
status "completed", unsatisfiable demands) into the empty coordinator
stores it with status "completed", not "pending". -/
theorem c5_submit_pending_counterexample :
    (dictGet "U" (SwarmCoordinator.empty.submit_learning_task exTaskCompleted).2.tasks).map
      LearningTask.status = some "completed" ∧ "completed" ≠ "pending" :=
  ⟨by decide, by decide⟩

/-- C5 (amended): `submitTask(t)` stores `t` exactly as supplied (status
"pending" is only the record's default), unconditionally — no suitability
check guards the store — then immediately attempts assignment on the
stored id and returns `t.task_id`; resubmitting an already-present id
overwrites, so the task registry's size does not grow. -/
theorem c5_submit_task (c : SwarmCoordinator) (t : LearningTask) :
    (c.submit_learning_task t).1 = t.task_id ∧
    (c.submit_learning_task t).2 =
      (SwarmCoordinator.assign_nodes_to_task
        { c with tasks := dictInsert t.task_id t c.tasks } t.task_id).2 ∧
    dictGet t.task_id ({ c with tasks := dictInsert t.task_id t c.tasks }).tasks = some t ∧
    (dictGet t.task_id (c.submit_learning_task t).2.tasks).isSome = true ∧
    ((dictGet t.task_id c.tasks).isSome = true →
      (c.submit_learning_task t).2.tasks.length = c.tasks.length) := by
  have hstore : dictGet t.task_id (dictInsert t.task_id t c.tasks) = some t :=
    dictGet_dictInsert_self _ _ _
  refine ⟨rfl, rfl, hstore, ?_, ?_⟩
  · show (dictGet t.task_id
      ((SwarmCoordinator.assign_nodes_to_task
        { c with tasks := dictInsert t.task_id t c.tasks } t.task_id).2).tasks).isSome = true
    rcases hs : List.insertionSort SwarmCoordinator.node_desc
        (SwarmCoordinator.candidate_nodes
          { c with tasks := dictInsert t.task_id t c.tasks } t) with _ | ⟨ch, rest⟩
    · rw [assign_of_no_candidate hstore ((insertionSort_node_desc_eq_nil_iff _).mp hs)]
      simp [hstore]
    · rw [assign_of_cons hstore hs]
      simp [dictGet_dictInsert_self]
  · intro hpres
    show ((SwarmCoordinator.assign_nodes_to_task
        { c with tasks := dictInsert t.task_id t c.tasks } t.task_id).2).tasks.length
      = c.tasks.length
    have hlen : (dictInsert t.task_id t c.tasks).length = c.tasks.length :=
      length_dictInsert_present hpres t
    rcases hs : List.insertionSort SwarmCoordinator.node_desc
        (SwarmCoordinator.candidate_nodes
          { c with tasks := dictInsert t.task_id t c.tasks } t) with _ | ⟨ch, rest⟩
    · rw [assign_of_no_candidate hstore ((insertionSort_node_desc_eq_nil_iff _).mp hs)]
      exact hlen
    · rw [assign_of_cons hstore hs]
      show (dictInsert t.task_id _ (dictInsert t.task_id t c.tasks)).length = c.tasks.length
      rw [length_dictInsert_present (by simp [hstore]) _]
      exact hlen

/-- Witness for C5 (amended): resubmitting id "U" into `exCoordNoFit`
(which already stores "U") returns "U" and leaves the registry size at 1. -/
theorem c5_submit_task_witness :
    (exCoordNoFit.submit_learning_task exTaskCompleted).1 = exTaskCompleted.task_id ∧
    (exCoordNoFit.submit_learning_task exTaskCompleted).2.tasks.length =
      exCoordNoFit.tasks.length :=
  ⟨(c5_submit_task exCoordNoFit exTaskCompleted).1,
    (c5_submit_task exCoordNoFit exTaskCompleted).2.2.2.2 (by decide)⟩

/-! ### C10: assignment ignores the task's status -/

/-- C10: the store step of submission keeps the caller-supplied task
verbatim (status included), and the immediate assignment attempt runs
regardless of that status: submitting `exTaskRunning` (status "running",
stale assignment ["old"]) while the idle suitable `exNodeA` is
registered overwrites its `assigned_nodes` with ["A"], resets its status
to "assigned", and marks the node busy. -/
theorem c10_assignment_ignores_task_status :
    (∀ (c : SwarmCoordinator) (t : LearningTask),
      dictGet t.task_id ({ c with tasks := dictInsert t.task_id t c.tasks }).tasks = some t) ∧
    (exCoordA.submit_learning_task exTaskRunning).1 = "R" ∧
    dictGet "R" (exCoordA.submit_learning_task exTaskRunning).2.tasks =
      some { exTaskRunning with assigned_nodes := ["A"], status := "assigned" } ∧
    (dictGet "A" (exCoordA.submit_learning_task exTaskRunning).2.nodes).map
      SwarmNode.status = some "busy" :=
  ⟨fun c t => dictGet_dictInsert_self _ _ _, by decide, by decide, by decide⟩

/-! ### C3: threshold governance -/

theorem unregister_fold_state (L : List String) (c : SwarmCoordinator) :
    L.foldl (fun st i => (st.unregister_node i).2) c =
      { c with nodes := L.foldl (fun ns i => dictErase i ns) c.nodes } := by
  induction L generalizing c with
  | nil => rfl
  | cons i L2 ih =>
      rw [List.foldl_cons, List.foldl_cons]
      have h1 : (c.unregister_node i).2 = { c with nodes := dictErase i c.nodes } := by
        unfold SwarmCoordinator.unregister_node
        by_cases h : (dictGet i c.nodes).isSome = true
        · simp [h]
        · have h0 : dictGet i c.nodes = none := by
            rcases hg : dictGet i c.nodes with _ | v
            · rfl
            · rw [hg] at h
              simp at h
          simp [h, dictErase_of_absent h0]
      rw [h1, ih]

theorem foldl_dictErase_eq_filter {α : Type} (L : List String) (l : List (String × α)) :
    L.foldl (fun ns i => dictErase i ns) l = l.filter (fun kv => decide (kv.1 ∉ L)) := by
  induction L generalizing l with
  | nil => simp
  | cons i L2 ih =>
      rw [List.foldl_cons, ih]
      unfold dictErase
      rw [List.filter_filter]
      apply List.filter_congr
      intro kv _
      by_cases h1 : kv.1 = i <;> by_cases h2 : kv.1 ∈ L2 <;> simp [h1, h2]

theorem assoc_key_inj {α : Type} {l : List (String × α)} (hnd : (dictKeys l).Nodup) :
    ∀ kv ∈ l, ∀ kw ∈ l, kv.1 = kw.1 → kv = kw := by
  intro kv h1 kw h2 h
  obtain ⟨a, b⟩ := kv
  obtain ⟨a2, b2⟩ := kw
  simp only at h
  subst h
  have e1 := mem_dictGet hnd h1
  have e2 := mem_dictGet hnd h2
  rw [e1] at e2
  simp only [Option.some_inj] at e2
  rw [e2]

/-- C3: after `setResourceThreshold(t2)` the threshold is `t2`, the node
registry is exactly its previous content filtered by the field-wise
admission check against `t2` (so every remaining node satisfies `t2` and
no violating node remains, each failing node being removed via the
`unregisterNode` path), and no task state is modified. -/
theorem c3_set_resource_threshold_governance (c : SwarmCoordinator)
    (t2 : ResourceThreshold) (hnd : (dictKeys c.nodes).Nodup) :
    (c.set_resource_threshold t2).resource_threshold = t2 ∧
    (c.set_resource_threshold t2).tasks = c.tasks ∧
    (c.set_resource_threshold t2).nodes =
      c.nodes.filter (fun kv =>
        SwarmCoordinator.meets_threshold { c with resource_threshold := t2 } kv.2) ∧
    (∀ kv ∈ (c.set_resource_threshold t2).nodes,
      SwarmCoordinator.meets_threshold { c with resource_threshold := t2 } kv.2 = true) := by
  have hstate : c.set_resource_threshold t2 =
      { c with
          resource_threshold := t2,
          nodes := ({ c with resource_threshold := t2 } : SwarmCoordinator).nodes.filter
            (fun kv => decide (kv.1 ∉
              dictKeys (({ c with resource_threshold := t2 } : SwarmCoordinator).nodes.filter
                (fun kv => ! SwarmCoordinator.meets_threshold
                  { c with resource_threshold := t2 } kv.2)))) } := by
    unfold SwarmCoordinator.set_resource_threshold
    rw [unregister_fold_state, foldl_dictErase_eq_filter]
  have hfilter :
      c.nodes.filter (fun kv => decide (kv.1 ∉
          dictKeys (c.nodes.filter (fun kv => ! SwarmCoordinator.meets_threshold
            { c with resource_threshold := t2 } kv.2)))) =
      c.nodes.filter (fun kv =>
        SwarmCoordinator.meets_threshold { c with resource_threshold := t2 } kv.2) := by
    apply List.filter_congr
    intro kv hkv
    by_cases hm : SwarmCoordinator.meets_threshold { c with resource_threshold := t2 } kv.2
      = true
    · rw [hm]
      simp only [decide_eq_true_eq]
      intro habs
      rcases List.mem_map.mp habs with ⟨kw, hkw, hk⟩
      have hkw2 := List.mem_filter.mp hkw
      have := assoc_key_inj hnd kw hkw2.1 kv hkv hk
      rw [this, hm] at hkw2
      simp at hkw2
    · have hm2 : SwarmCoordinator.meets_threshold { c with resource_threshold := t2 } kv.2
        = false := by
        cases hb : SwarmCoordinator.meets_threshold { c with resource_threshold := t2 } kv.2
        · rfl
        · exact absurd hb hm
      rw [hm2]
      simp only [decide_eq_false_iff_not, Decidable.not_not]
      exact List.mem_map.mpr ⟨kv, List.mem_filter.mpr ⟨hkv, by rw [hm2]; rfl⟩, rfl⟩
  refine ⟨by rw [hstate], by rw [hstate], ?_, ?_⟩
  · rw [hstate]
    exact hfilter
  · intro kv hkv
    rw [hstate] at hkv
    simp only at hkv
    rw [hfilter] at hkv
    exact (List.mem_filter.mp hkv).2

/-- Witness for C3: raising the threshold to `exBigDemand` over
`exCoordA` evicts node "A" and leaves tasks untouched. -/
theorem c3_set_resource_threshold_governance_witness :
    (exCoordA.set_resource_threshold exBigDemand).resource_threshold = exBigDemand ∧
    (exCoordA.set_resource_threshold exBigDemand).tasks = exCoordA.tasks ∧
    (exCoordA.set_resource_threshold exBigDemand).nodes =
      exCoordA.nodes.filter (fun kv =>
        SwarmCoordinator.meets_threshold
          { exCoordA with resource_threshold := exBigDemand } kv.2) :=
  ⟨(c3_set_resource_threshold_governance exCoordA exBigDemand (by decide)).1,
    (c3_set_resource_threshold_governance exCoordA exBigDemand (by decide)).2.1,
    (c3_set_resource_threshold_governance exCoordA exBigDemand (by decide)).2.2.1⟩

/-! ### C7: status aggregation -/

theorem countP_status_partition (l : List SwarmNode)
    (h : ∀ n ∈ l, n.status = "idle" ∨ n.status = "busy" ∨ n.status = "learning"
      ∨ n.status = "error") :
    l.countP (fun n => n.status == "idle") + l.countP (fun n => n.status == "busy") +
      l.countP (fun n => n.status == "learning") +
      l.countP (fun n => n.status == "error") = l.length := by
  induction l with
  | nil => simp
  | cons a t ih =>
      have ha := h a (List.mem_cons_self a t)
      have iht := ih (fun n hn => h n (List.mem_cons_of_mem a hn))
      rcases ha with h1 | h1 | h1 | h1 <;>
        simp only [List.countP_cons, List.length_cons, h1] <;>
        simp <;> omega

/-- Counterexample to C7 as stated: the snapshot carries node counts only
for idle, busy and learning, so on `exCoordErr` (one node, status
"error", all statuses among the four enumerated values) the surfaced
per-status node counts sum to 0 while `total_nodes` is 1. -/
theorem c7_status_counts_counterexample :
    (∀ n ∈ dictValues exCoordErr.nodes,
      n.status = "idle" ∨ n.status = "busy" ∨ n.status = "learning"
        ∨ n.status = "error") ∧
    (exCoordErr.get_swarm_status).total_nodes = 1 ∧
    (exCoordErr.get_swarm_status).idle_nodes + (exCoordErr.get_swarm_status).busy_nodes +
        (exCoordErr.get_swarm_status).learning_nodes ≠
      (exCoordErr.get_swarm_status).total_nodes :=
  ⟨by decide, by decide, by decide⟩

/-- C7 (amended): `getSwarmStatus()` is a pure read (in this model a
function of the state producing no successor state) returning the total
node count, node counts for idle/busy/learning (error-status nodes are
counted in no surfaced bucket), task counts for pending/running/completed,
and the current threshold; assuming every node's status is one of the
four values, the three surfaced node counts plus the number of
error-status registered nodes sum to `total_nodes`. -/
theorem c7_swarm_status_counts (c : SwarmCoordinator)
    (h : ∀ n ∈ dictValues c.nodes,
      n.status = "idle" ∨ n.status = "busy" ∨ n.status = "learning"
        ∨ n.status = "error") :
    (c.get_swarm_status).resource_threshold = c.resource_threshold ∧
    (c.get_swarm_status).total_nodes = (dictValues c.nodes).length ∧
    (c.get_swarm_status).pending_tasks =
      (dictValues c.tasks).countP (fun t => t.status == "pending") ∧
    (c.get_swarm_status).idle_nodes + (c.get_swarm_status).busy_nodes +
        (c.get_swarm_status).learning_nodes + c.count_error_nodes =
      (c.get_swarm_status).total_nodes := by
  refine ⟨rfl, rfl, rfl, ?_⟩
  exact countP_status_partition (dictValues c.nodes) h

/-- Witness for C7 (amended), on the single-error-node coordinator. -/
theorem c7_swarm_status_counts_witness :
    (exCoordErr.get_swarm_status).idle_nodes + (exCoordErr.get_swarm_status).busy_nodes +
        (exCoordErr.get_swarm_status).learning_nodes + exCoordErr.count_error_nodes =
      (exCoordErr.get_swarm_status).total_nodes :=
  (c7_swarm_status_counts exCoordErr (by decide)).2.2.2

/-! ### Well-formedness and invariant preservation -/

theorem mem_dictValues_dictInsert {α : Type} {x : α} {k : String} {v : α}
    {l : List (String × α)} (hm : x ∈ dictValues (dictInsert k v l)) :
    x = v ∨ x ∈ dictValues l := by
  rcases mem_dictValues hm with ⟨q, hq⟩
  rcases mem_dictInsert_of_mem hq with h | h
  · exact Or.inl (congrArg Prod.snd h)
  · exact Or.inr (dictValues_mem h)

theorem wf_nodes_get {c : SwarmCoordinator} (hWF : c.WF) {x : SwarmNode}
    (hm : x ∈ dictValues c.nodes) : dictGet x.node_id c.nodes = some x := by
  rcases mem_dictValues hm with ⟨q, hq⟩
  have hk := hWF.2.2.1 (q, x) hq
  simp only at hk
  rw [← hk]
  exact mem_dictGet hWF.1 hq

theorem wf_tasks_key {c : SwarmCoordinator} (hWF : c.WF) {k : String}
    {t : LearningTask} (h : dictGet k c.tasks = some t) : k = t.task_id :=
  hWF.2.2.2 (k, t) (dictGet_mem h)

theorem candidate_facts {c : SwarmCoordinator} {t : LearningTask} {x : SwarmNode}
    (hx : x ∈ c.candidate_nodes t) :
    x ∈ dictValues c.nodes ∧ x.status = "idle" ∧
      SwarmCoordinator.node_suitable_for_task x t = true := by
  have h := List.mem_filter.mp hx
  refine ⟨h.1, ?_, ?_⟩
  · have h2 := h.2
    simp only [Bool.and_eq_true, beq_iff_eq] at h2
    exact h2.1
  · have h2 := h.2
    simp only [Bool.and_eq_true, beq_iff_eq] at h2
    exact h2.2

theorem wf_register (c : SwarmCoordinator) (n : SwarmNode) (hWF : c.WF) :
    ((c.register_node n).2).WF := by
  unfold SwarmCoordinator.register_node
  by_cases h : c.meets_threshold n = false
  · simpa [h] using hWF
  · simp only [h, if_neg, ite_false]
    obtain ⟨h1, h2, h3, h4⟩ := hWF
    refine ⟨nodup_dictKeys_dictInsert h1 _ _, h2, ?_, h4⟩
    intro kv hkv
    rcases mem_dictInsert_of_mem hkv with h5 | h5
    · rw [h5]
    · exact h3 kv h5

theorem wf_unregister (c : SwarmCoordinator) (i : String) (hWF : c.WF) :
    ((c.unregister_node i).2).WF := by
  unfold SwarmCoordinator.unregister_node
  by_cases h : (dictGet i c.nodes).isSome = true
  · obtain ⟨h1, h2, h3, h4⟩ := hWF
    simp only [h, if_pos, ite_true]
    exact ⟨nodup_dictKeys_dictErase h1 i, h2,
      fun kv hkv => h3 kv (List.mem_filter.mp hkv).1, h4⟩
  · simpa [h] using hWF

theorem wf_tasks_insert (c : SwarmCoordinator) (t : LearningTask) (hWF : c.WF) :
    SwarmCoordinator.WF { c with tasks := dictInsert t.task_id t c.tasks } := by
  obtain ⟨h1, h2, h3, h4⟩ := hWF
  refine ⟨h1, nodup_dictKeys_dictInsert h2 _ _, h3, ?_⟩
  intro kv hkv
  rcases mem_dictInsert_of_mem hkv with h5 | h5
  · rw [h5]
  · exact h4 kv h5

theorem wf_assign (c : SwarmCoordinator) (tid : String) (hWF : c.WF) :
    ((c.assign_nodes_to_task tid).2).WF := by
  rcases ht : dictGet tid c.tasks with _ | t
  · rw [assign_of_absent ht]
    exact hWF
  · rcases hs : List.insertionSort SwarmCoordinator.node_desc (c.candidate_nodes t)
      with _ | ⟨ch, rest⟩
    · rw [assign_of_no_candidate ht ((insertionSort_node_desc_eq_nil_iff _).mp hs)]
      exact hWF
    · rw [assign_of_cons ht hs]
      obtain ⟨h1, h2, h3, h4⟩ := hWF
      have hkey : tid = t.task_id := wf_tasks_key ⟨h1, h2, h3, h4⟩ ht
      refine ⟨nodup_dictKeys_dictInsert h1 _ _, nodup_dictKeys_dictInsert h2 _ _, ?_, ?_⟩
      · intro kv hkv
        rcases mem_dictInsert_of_mem hkv with h5 | h5
        · rw [h5]
        · exact h3 kv h5
      · intro kv hkv
        rcases mem_dictInsert_of_mem hkv with h5 | h5
        · rw [h5]
          exact hkey
        · exact h4 kv h5

theorem set_resource_threshold_parts (c : SwarmCoordinator) (t2 : ResourceThreshold) :
    (c.set_resource_threshold t2).resource_threshold = t2 ∧
    (c.set_resource_threshold t2).tasks = c.tasks ∧
    ∃ p : String × SwarmNode → Bool,
      (c.set_resource_threshold t2).nodes = c.nodes.filter p := by
  unfold SwarmCoordinator.set_resource_threshold
  rw [unregister_fold_state, foldl_dictErase_eq_filter]
  exact ⟨rfl, rfl, _, rfl⟩

theorem wf_set_threshold (c : SwarmCoordinator) (t2 : ResourceThreshold) (hWF : c.WF) :
    (c.set_resource_threshold t2).WF := by
  obtain ⟨hth, htk, p, hp⟩ := set_resource_threshold_parts c t2
  obtain ⟨h1, h2, h3, h4⟩ := hWF
  refine ⟨?_, by rw [htk]; exact h2, ?_, by rw [htk]; exact h4⟩
  · rw [hp]
    exact List.Nodup.sublist (List.Sublist.map _ (List.filter_sublist c.nodes)) h1
  · intro kv hkv
    rw [hp] at hkv
    exact h3 kv (List.mem_filter.mp hkv).1

theorem dictGet_filter_some {α : Type} {p : String × α → Bool} {l : List (String × α)}
    (hnd : (dictKeys l).Nodup) {k : String} {v : α}
    (h : dictGet k (l.filter p) = some v) : dictGet k l = some v :=
  mem_dictGet hnd (List.mem_filter.mp (dictGet_mem h)).1

theorem strong_inv_assign (c : SwarmCoordinator) (tid : String)
    (h : c.StrongInv) : ((c.assign_nodes_to_task tid).2).StrongInv := by
  obtain ⟨hWF, hRef, hND⟩ := h
  rcases ht : dictGet tid c.tasks with _ | t
  · rw [assign_of_absent ht]
    exact ⟨hWF, hRef, hND⟩
  · rcases hs : List.insertionSort SwarmCoordinator.node_desc (c.candidate_nodes t)
      with _ | ⟨ch, rest⟩
    · rw [assign_of_no_candidate ht ((insertionSort_node_desc_eq_nil_iff _).mp hs)]
      exact ⟨hWF, hRef, hND⟩
    · obtain ⟨hchv, hidle, hsuit⟩ := candidate_facts (assign_head_mem hs)
      have hgetch : dictGet ch.node_id c.nodes = some ch := wf_nodes_get hWF hchv
      have hF : ∀ k t0, dictGet k c.tasks = some t0 → ch.node_id ∉ t0.assigned_nodes := by
        intro k t0 hk habs
        rcases hRef k t0 hk ch.node_id habs ch hgetch with h1 | h1 | h1 <;>
          rw [hidle] at h1 <;> exact absurd h1 (by decide)
      have hWF2 := wf_assign c tid hWF
      rw [assign_of_cons ht hs] at hWF2 ⊢
      refine ⟨hWF2, ?_, ?_⟩
      · intro k t0 hk i hi n hn
        by_cases hkt : k = tid
        · subst hkt
          rw [dictGet_dictInsert_self] at hk
          have ht0 : t0 = { t with assigned_nodes := [ch.node_id], status := "assigned" } :=
            (Option.some_inj.mp hk).symm
          rw [ht0] at hi
          simp only [List.mem_singleton] at hi
          subst hi
          rw [dictGet_dictInsert_self] at hn
          have hn2 : n = { ch with status := "busy" } := (Option.some_inj.mp hn).symm
          rw [hn2]
          exact Or.inl rfl
        · rw [dictGet_dictInsert_ne hkt _ _] at hk
          by_cases hich : i = ch.node_id
          · subst hich
            exact absurd hi (hF k t0 hk)
          · rw [dictGet_dictInsert_ne hich _ _] at hn
            exact hRef k t0 hk i hi n hn
      · intro k1 t1 k2 t2 h1 h2 hne i hi1
        by_cases hk1 : k1 = tid
        · subst hk1
          rw [dictGet_dictInsert_self] at h1
          have ht1 : t1 = { t with assigned_nodes := [ch.node_id], status := "assigned" } :=
            (Option.some_inj.mp h1).symm
          have hk2 : k2 ≠ k1 := fun he => hne he.symm
          rw [dictGet_dictInsert_ne hk2 _ _] at h2
          rw [ht1] at hi1
          simp only [List.mem_singleton] at hi1
          subst hi1
          exact hF k2 t2 h2
        · rw [dictGet_dictInsert_ne hk1 _ _] at h1
          by_cases hk2 : k2 = tid
          · subst hk2
            rw [dictGet_dictInsert_self] at h2
            have ht2 : t2 = { t with assigned_nodes := [ch.node_id], status := "assigned" } :=
              (Option.some_inj.mp h2).symm
            rw [ht2]
            simp only [List.mem_singleton]
            intro he
            subst he
            exact hF k1 t1 h1 hi1
          · rw [dictGet_dictInsert_ne hk2 _ _] at h2
            exact hND k1 t1 k2 t2 h1 h2 hne i hi1

theorem strong_inv_register (c : SwarmCoordinator) (n : SwarmNode)
    (h : c.StrongInv)
    (hunref : ∀ kv ∈ c.tasks, n.node_id ∉ kv.2.assigned_nodes) :
    ((c.register_node n).2).StrongInv := by
  obtain ⟨hWF, hRef, hND⟩ := h
  by_cases hm : c.meets_threshold n = false
  · have hstate : (c.register_node n).2 = c := by
      unfold SwarmCoordinator.register_node
      simp [hm]
    rw [hstate]
    exact ⟨hWF, hRef, hND⟩
  · have hstate : (c.register_node n).2 =
        { c with nodes := dictInsert n.node_id n c.nodes } := by
      unfold SwarmCoordinator.register_node
      simp [hm]
    have hWF2 := wf_register c n hWF
    rw [hstate] at hWF2 ⊢
    refine ⟨hWF2, ?_, hND⟩
    intro k t hk i hi n0 hn0
    by_cases hin : i = n.node_id
    · subst hin
      exact absurd hi (hunref (k, t) (dictGet_mem hk))
    · rw [dictGet_dictInsert_ne hin _ _] at hn0
      exact hRef k t hk i hi n0 hn0

theorem strong_inv_unregister (c : SwarmCoordinator) (i : String)
    (h : c.StrongInv) : ((c.unregister_node i).2).StrongInv := by
  obtain ⟨hWF, hRef, hND⟩ := h
  by_cases hp : (dictGet i c.nodes).isSome = true
  · have hstate : (c.unregister_node i).2 = { c with nodes := dictErase i c.nodes } := by
      unfold SwarmCoordinator.unregister_node
      simp [hp]
    have hWF2 := wf_unregister c i hWF
    rw [hstate] at hWF2 ⊢
    refine ⟨hWF2, ?_, hND⟩
    intro k t hk j hj n hn
    exact hRef k t hk j hj n (dictGet_filter_some hWF.1 hn)
  · have hstate : (c.unregister_node i).2 = c := by
      unfold SwarmCoordinator.unregister_node
      simp [hp]
    rw [hstate]
    exact ⟨hWF, hRef, hND⟩

theorem strong_inv_set_threshold (c : SwarmCoordinator) (t2 : ResourceThreshold)
    (h : c.StrongInv) : (c.set_resource_threshold t2).StrongInv := by
  obtain ⟨hWF, hRef, hND⟩ := h
  obtain ⟨hth, htk, p, hp⟩ := set_resource_threshold_parts c t2
  refine ⟨wf_set_threshold c t2 hWF, ?_, ?_⟩
  · intro k t hk i hi n hn
    rw [htk] at hk
    rw [hp] at hn
    exact hRef k t hk i hi n (dictGet_filter_some hWF.1 hn)
  · intro k1 t1 k2 t2x h1 h2 hne i hi1
    rw [htk] at h1 h2
    exact hND k1 t1 k2 t2x h1 h2 hne i hi1

theorem strong_inv_store (c : SwarmCoordinator) (t : LearningTask)
    (h : c.StrongInv) (hempty : t.assigned_nodes = []) :
    SwarmCoordinator.StrongInv { c with tasks := dictInsert t.task_id t c.tasks } := by
  obtain ⟨hWF, hRef, hND⟩ := h
  refine ⟨wf_tasks_insert c t hWF, ?_, ?_⟩
  · intro k t0 hk i hi n hn
    by_cases hkt : k = t.task_id
    · subst hkt
      rw [dictGet_dictInsert_self] at hk
      have ht0 : t0 = t := (Option.some_inj.mp hk).symm
      rw [ht0, hempty] at hi
      simp at hi
    · rw [dictGet_dictInsert_ne hkt _ _] at hk
      exact hRef k t0 hk i hi n hn
  · intro k1 t1 k2 t2 h1 h2 hne i hi1
    by_cases hk1 : k1 = t.task_id
    · subst hk1
      rw [dictGet_dictInsert_self] at h1
      have ht1 : t1 = t := (Option.some_inj.mp h1).symm
      rw [ht1, hempty] at hi1
      simp at hi1
    · rw [dictGet_dictInsert_ne hk1 _ _] at h1
      by_cases hk2 : k2 = t.task_id
      · subst hk2
        rw [dictGet_dictInsert_self] at h2
        have ht2 : t2 = t := (Option.some_inj.mp h2).symm
        rw [ht2, hempty]
        simp
      · rw [dictGet_dictInsert_ne hk2 _ _] at h2
        exact hND k1 t1 k2 t2 h1 h2 hne i hi1

theorem strong_inv_submit (c : SwarmCoordinator) (t : LearningTask)
    (h : c.StrongInv) (hempty : t.assigned_nodes = []) :
    ((c.submit_learning_task t).2).StrongInv :=
  strong_inv_assign { c with tasks := dictInsert t.task_id t c.tasks } t.task_id
    (strong_inv_store c t h hempty)

theorem strong_inv_empty : SwarmCoordinator.empty.StrongInv := by
  refine ⟨by decide, ?_, ?_⟩
  · intro k t hk
    simp [SwarmCoordinator.empty, dictGet] at hk
  · intro k1 t1 k2 t2 h1 h2
    simp [SwarmCoordinator.empty, dictGet] at h1

theorem strong_inv_reachable {c : SwarmCoordinator} (h : AdmissibleReachable c) :
    c.StrongInv := by
  induction h with
  | empty => exact strong_inv_empty
  | register n _hr hunref ih => exact strong_inv_register _ n ih hunref
  | unregister i _hr ih => exact strong_inv_unregister _ i ih
  | submit t _hr hempty ih => exact strong_inv_submit _ t ih hempty
  | assign i _hr ih => exact strong_inv_assign _ i ih
  | set_threshold th _hr ih => exact strong_inv_set_threshold _ th ih

/-! ### C4: referenced-node status and no double-booking -/

/-- Counterexample to C4 as stated: after the public-operation sequence
[registerNode(exNodeA), submitTask(exTaskRefA)] from the empty
coordinator, the stored task "S" references node "A" in its
`assigned_nodes` while "A" is registered with status "idle" — a node
referenced by a task's assignment need not be busy/learning/error. -/
theorem c4_no_double_booking_counterexample :
    dictGet "S" exCoordBad.tasks = some exTaskRefA ∧
    "A" ∈ exTaskRefA.assigned_nodes ∧
    dictGet "A" exCoordBad.nodes = some exNodeA ∧
    exNodeA.status = "idle" ∧
    ¬(exNodeA.status = "busy" ∨ exNodeA.status = "learning"
      ∨ exNodeA.status = "error") :=
  ⟨by decide, by decide, by decide, by decide, by decide⟩

/-- C4 (amended): in every state reachable from the empty coordinator by
public operations whose inputs are well-behaved (each registered node's
`node_id` is not currently referenced by any task's `assigned_nodes`,
and each submitted task arrives with empty `assigned_nodes`), every
registered node referenced by some stored task's `assigned_nodes` has
status busy, learning or error, and no node id appears in the
`assigned_nodes` of two distinct stored tasks (no double-booking; the
coordinator itself only assigns idle nodes). -/
theorem c4_no_double_booking (c : SwarmCoordinator) (h : AdmissibleReachable c) :
    (∀ k t, dictGet k c.tasks = some t → ∀ i ∈ t.assigned_nodes,
      ∀ n, dictGet i c.nodes = some n →
        n.status = "busy" ∨ n.status = "learning" ∨ n.status = "error") ∧
    (∀ k1 t1 k2 t2, dictGet k1 c.tasks = some t1 → dictGet k2 c.tasks = some t2 →
      k1 ≠ k2 → ∀ i ∈ t1.assigned_nodes, i ∉ t2.assigned_nodes) :=
  ⟨(strong_inv_reachable h).2.1, (strong_inv_reachable h).2.2⟩

/-- Witness for C4 (amended): registering `exNodeA` and then submitting
`exTask` is an admissible history; the invariant instantiated at task
"T", node "A" yields that the assigned node is busy. -/
theorem c4_no_double_booking_witness :
    SwarmNode.status { exNodeA with status := "busy" } = "busy" ∨
    SwarmNode.status { exNodeA with status := "busy" } = "learning" ∨
    SwarmNode.status { exNodeA with status := "busy" } = "error" := by
  have h0 : AdmissibleReachable
      (SwarmCoordinator.empty.apply_op (SwarmOp.register exNodeA)) :=
    AdmissibleReachable.register exNodeA AdmissibleReachable.empty (by decide)
  have h1 : AdmissibleReachable exCoordAssigned :=
    AdmissibleReachable.submit exTask h0 rfl
  exact (c4_no_double_booking exCoordAssigned h1).1 "T"
    { exTask with assigned_nodes := ["A"], status := "assigned" } (by decide)
    "A" (by decide) { exNodeA with status := "busy" } (by decide)

/-! ### C9: the continuous-learning loop -/

theorem candidate_nodes_assign_subset (c : SwarmCoordinator) (tid : String)
    (t : LearningTask) :
    ∀ x ∈ ((c.assign_nodes_to_task tid).2).candidate_nodes t, x ∈ c.candidate_nodes t := by
  intro x hx
  rcases ht : dictGet tid c.tasks with _ | t0
  · rw [assign_of_absent ht] at hx
    exact hx
  · rcases hs : List.insertionSort SwarmCoordinator.node_desc (c.candidate_nodes t0)
      with _ | ⟨ch, rest⟩
    · rw [assign_of_no_candidate ht ((insertionSort_node_desc_eq_nil_iff _).mp hs)] at hx
      exact hx
    · rw [assign_of_cons ht hs] at hx
      have hx2 := List.mem_filter.mp hx
      have hv := hx2.1
      rcases mem_dictValues_dictInsert hv with hxc | hv2
      · have hb := hx2.2
        rw [hxc] at hb
        simp at hb
      · exact List.mem_filter.mpr ⟨hv2, hx2.2⟩

theorem assign_tasks_get_ne (c : SwarmCoordinator) (tid k : String) (hne : k ≠ tid) :
    dictGet k ((c.assign_nodes_to_task tid).2).tasks = dictGet k c.tasks := by
  rcases ht : dictGet tid c.tasks with _ | t0
  · rw [assign_of_absent ht]
  · rcases hs : List.insertionSort SwarmCoordinator.node_desc (c.candidate_nodes t0)
      with _ | ⟨ch, rest⟩
    · rw [assign_of_no_candidate ht ((insertionSort_node_desc_eq_nil_iff _).mp hs)]
    · rw [assign_of_cons ht hs]
      exact dictGet_dictInsert_ne hne _ _

theorem iteration_fold_pending (L : List String) (c : SwarmCoordinator)
    (hinv : ∀ k t, dictGet k c.tasks = some t → t.status = "pending" →
      k ∈ L ∨ c.candidate_nodes t = []) :
    ∀ k t,
      dictGet k (L.foldl (fun st i => (st.assign_nodes_to_task i).2) c).tasks = some t →
      t.status = "pending" →
      (L.foldl (fun st i => (st.assign_nodes_to_task i).2) c).candidate_nodes t = [] := by
  induction L generalizing c with
  | nil =>
      intro k t hk hp
      rcases hinv k t hk hp with h | h
      · simp at h
      · exact h
  | cons i L2 ih =>
      intro k t hk hp
      rw [List.foldl_cons] at hk ⊢
      refine ih ((c.assign_nodes_to_task i).2) ?_ k t hk hp
      intro k0 t0 hk0 hp0
      by_cases hki : k0 = i
      · subst hki
        cases hb : (c.assign_nodes_to_task k0).1 with
        | false =>
            have hst := assign_false_state c k0 hb
            rw [hst] at hk0
            rcases (assign_false_iff c k0).mp hb with habs | ⟨t1, ht1, hc1⟩
            · rw [habs] at hk0
              exact absurd hk0 (by simp)
            · rw [ht1] at hk0
              have he : t0 = t1 := (Option.some_inj.mp hk0).symm
              right
              rw [hst, he]
              exact hc1
        | true =>
            rcases htt : dictGet k0 c.tasks with _ | t1
            · rw [assign_of_absent htt] at hb
              simp at hb
            · rcases hs : List.insertionSort SwarmCoordinator.node_desc
                  (c.candidate_nodes t1) with _ | ⟨ch, rest⟩
              · rw [assign_of_no_candidate htt
                  ((insertionSort_node_desc_eq_nil_iff _).mp hs)] at hb
                simp at hb
              · rw [assign_of_cons htt hs] at hk0
                simp only at hk0
                rw [dictGet_dictInsert_self] at hk0
                have he := (Option.some_inj.mp hk0).symm
                rw [he] at hp0
                simp at hp0
      · have hk0c : dictGet k0 c.tasks = some t0 := by
          rw [← assign_tasks_get_ne c i k0 hki]
          exact hk0
        rcases hinv k0 t0 hk0c hp0 with hL | hc
        · rcases List.mem_cons.mp hL with he | hm
          · exact absurd he hki
          · exact Or.inl hm
        · right
          refine List.eq_nil_iff_forall_not_mem.mpr ?_
          intro x hx
          have := candidate_nodes_assign_subset c i t0 x hx
          rw [hc] at this
          simp at this

theorem pending_ids_cover (c : SwarmCoordinator) (hWF : c.WF) :
    ∀ k t, dictGet k c.tasks = some t → t.status = "pending" →
      k ∈ c.pending_task_ids := by
  intro k t hk hp
  have hkey := wf_tasks_key hWF hk
  have hmem : t ∈ dictValues c.tasks := dictValues_mem (dictGet_mem hk)
  rw [hkey]
  unfold SwarmCoordinator.pending_task_ids
  exact List.mem_map.mpr ⟨t, List.mem_filter.mpr ⟨hmem, by simp [hp]⟩, rfl⟩

theorem learning_iteration_pending (c : SwarmCoordinator) (hWF : c.WF) :
    ∀ k t, dictGet k c.learning_iteration.tasks = some t → t.status = "pending" →
      c.learning_iteration.candidate_nodes t = [] := by
  unfold SwarmCoordinator.learning_iteration
  exact iteration_fold_pending c.pending_task_ids c
    (fun k t hk hp => Or.inl (pending_ids_cover c hWF k t hk hp))

/-- C9: one iteration of `runContinuousLearning` collects the pending
tasks and calls the assignment routine on each — afterwards no task left
pending has any candidate node; a body that completes is followed by the
normal 5-unit sleep and a body that raises is caught at the loop
boundary and followed by the 10-unit backoff sleep, and in both cases
the next iteration runs from the body's final state: an error neither
propagates out of the loop nor terminates it. -/
theorem c9_loop_error_handling :
    (∀ c : SwarmCoordinator,
      SwarmCoordinator.loop_step SwarmCoordinator.normal_body c =
        (c.learning_iteration, 5)) ∧
    (∀ (body : SwarmCoordinator → IterOutcome) (c c2 : SwarmCoordinator),
      body c = IterOutcome.raised c2 →
      SwarmCoordinator.loop_step body c = (c2, 10)) ∧
    (∀ (body : SwarmCoordinator → IterOutcome) (n : Nat) (c : SwarmCoordinator),
      SwarmCoordinator.run_continuous_learning body (n + 1) c =
        SwarmCoordinator.run_continuous_learning body n
          (SwarmCoordinator.loop_step body c).1) ∧
    (∀ c : SwarmCoordinator, c.WF →
      ∀ k t, dictGet k c.learning_iteration.tasks = some t → t.status = "pending" →
        c.learning_iteration.candidate_nodes t = []) := by
  refine ⟨fun c => rfl, ?_, fun body n c => rfl, learning_iteration_pending⟩
  intro body c c2 hb
  unfold SwarmCoordinator.loop_step
  rw [hb]

/-- Witness for C9: on `exCoordHungry` the normal body runs and sleeps 5;
a raising body is caught and sleeps 10; and after one iteration the
still-pending unsatisfiable task "P" indeed has no candidates. -/
theorem c9_loop_error_handling_witness :
    SwarmCoordinator.loop_step SwarmCoordinator.normal_body exCoordHungry =
      (exCoordHungry.learning_iteration, 5) ∧
    SwarmCoordinator.loop_step (fun _ => IterOutcome.raised exCoordA) exCoordHungry =
      (exCoordA, 10) ∧
    exCoordHungry.learning_iteration.candidate_nodes exTaskHungry = [] :=
  ⟨c9_loop_error_handling.1 exCoordHungry,
    c9_loop_error_handling.2.1 (fun _ => IterOutcome.raised exCoordA) exCoordHungry
      exCoordA rfl,
    c9_loop_error_handling.2.2.2 exCoordHungry (by decide) "P" exTaskHungry
      (by decide) (by decide)⟩
